import Mathlib

/-!
Shallow embedding of the source-synchronized RAG pipeline of this repository
(files `rag_core.py`, `ingest.py`, `config.py`, `api.py`) and proofs about it.

Modelling conventions:
- Python strings are Lean `String`s; the Python string primitives used by the
  code (`strip`, `split`, `join`, `find`, slicing, `startswith`) are embedded
  as executable functions on the underlying `List Char`.
- The Chroma vector index is a list of entries `(text, metadata)`; metadata is
  the typed record of the scalar keys this code actually writes
  (`source`, `type`, `url`, `name`; `filename` is carried because the query
  path reads it). Entry ids are fresh uuids in the code and play no role in
  any property here, so they are not modelled.
- Files on disk (knowledge file, url_content.txt, qna.txt, the documents
  directory) are carried in a `SysState` record; a missing flat file and an
  empty flat file behave identically in the code paths modelled here.
- Python `for` loops over a list with a stride are embedded with an explicit
  iteration bound (`fuel`) so that every function is structurally recursive;
  the wrappers pass a bound that is provably sufficient (each iteration
  consumes at least one element), and fuel-irrelevance lemmas are proved.
- Chroma distances are Python floats; they are modelled as rationals, which
  is faithful to every comparison the code performs.
- The external capabilities (embedding service, completion service, PDF/DOCX
  extractors, HTTP fetching) are out of scope per the spec; functions that
  consume their output take that output as an argument.
-/

/-- Python `str.strip()` on the character list: drop whitespace from both ends. -/
def stripChars (l : List Char) : List Char :=
  ((l.dropWhile Char.isWhitespace).reverse.dropWhile Char.isWhitespace).reverse

/-- Python `str.strip()` at the `String` level. -/
def pyStrip (s : String) : String :=
  String.mk (stripChars s.data)

/-- Python `str.split()` (no separator): cut at runs of whitespace, no empty
words. `acc` is the current word accumulated in reverse. -/
def wordsAux : List Char → List Char → List (List Char)
  | [], acc => if acc = [] then [] else [acc.reverse]
  | c :: cs, acc =>
    if c.isWhitespace then
      (if acc = [] then [] else [acc.reverse]) ++ wordsAux cs []
    else wordsAux cs (c :: acc)

/-- Python `str.split()` at the `String` level. -/
def pyWords (s : String) : List String :=
  (wordsAux s.data []).map String.mk

/-- Python `sep.join(parts)`. -/
def joinSep (sep : String) : List String → String
  | [] => ""
  | [x] => x
  | x :: xs => x ++ (sep ++ joinSep sep xs)

/-- Python `str.split(sep)` for a non-empty separator, scanning left to right
and cutting at each non-overlapping occurrence. `fuel` bounds the number of
steps; each step consumes at least one character, so the
`l.length` passed by the wrapper is always sufficient (see `pySplitAux_fuel_irrelevant`). -/
def pySplitAux (sep : List Char) : Nat → List Char → List Char → List (List Char)
  | _, [], acc => [acc.reverse]
  | 0, _ :: _, acc => [acc.reverse]
  | fuel + 1, c :: cs, acc =>
    if sep.isPrefixOf (c :: cs) then
      acc.reverse :: pySplitAux sep fuel (cs.drop (sep.length - 1)) []
    else pySplitAux sep fuel cs (c :: acc)

/-- Python `text.split(sep)` (non-empty `sep`) on the characters of `text`. -/
def pySplitOn (sep : String) (l : List Char) : List (List Char) :=
  pySplitAux sep.data l.length l []

/-- Configuration `CHUNK_SIZE` (config.py, default "500"). -/
def CHUNK_SIZE : Nat := 500

/-- Configuration `CHUNK_OVERLAP` (config.py, default "50"). -/
def CHUNK_OVERLAP : Nat := 50

/-- Configuration `TOP_K` (config.py, default "5"). -/
def TOP_K : Nat := 5

/-- Configuration `SIMILARITY_THRESHOLD` (config.py, default "0.4"),
imported by rag_core.py. -/
def SIMILARITY_THRESHOLD : ℚ := 0.4

/-- The `for i in range(0, len(words), step)` loop of `chunk_text`
(rag_core.py): at offset `i` take up to `chunk_size` words, join with a
space, keep the window if non-blank, and stop once the window end reaches
the end of the words; `step = max 1 rawStep` as in the source
(`step = max(1, chunk_size - overlap)`). `fuel` bounds the number of
iterations; the wrapper passes `words.length`, which is sufficient since
`step ≥ 1` (see `chunkLoop_fuel_irrelevant`). -/
def chunkLoop (words : List String) (chunk_size rawStep : Nat) : Nat → Nat → List String
  | 0, _ => []
  | fuel + 1, i =>
    if i < words.length then
      let chunk := joinSep " " ((words.drop i).take chunk_size)
      let rest :=
        if words.length ≤ i + chunk_size then []
        else chunkLoop words chunk_size rawStep fuel (i + max 1 rawStep)
      if pyStrip chunk = "" then rest else chunk :: rest
    else []

/-- `chunk_text(text, chunk_size, overlap)` of rag_core.py: strip the text,
split into words, and emit overlapping fixed-size word windows. -/
def chunk_text (text : String) (chunk_size : Nat := CHUNK_SIZE)
    (overlap : Nat := CHUNK_OVERLAP) : List String :=
  if pyStrip text = "" then []
  else
    let words := pyWords (pyStrip text)
    if words = [] then []
    else chunkLoop words chunk_size (chunk_size - overlap) words.length 0

/-- Integer ceiling of the fraction `a / b` for `b > 0`, used to state the
chunk-count law of the spec (`Int` division is euclidean division here, which
floors for a positive divisor). -/
def ceilQ (a b : Int) : Int := (a + b - 1) / b

/-- Metadata of one Chroma entry: the scalar keys this code writes
(`{**metadata_base, "source": source_label}` in `ingest_text`, with
`metadata_base` one of `{type}`, `{type, url}`, `{type, name}`), plus
`filename`, which is never written but is read by the source-label
fallback chain of `query_rag`. -/
structure ChunkMeta where
  source : String
  type : String
  url : Option String := none
  name : Option String := none
  filename : Option String := none
deriving DecidableEq, Repr

/-- One entry of the Chroma collection: chunk text plus metadata (ids are
fresh uuids in the code and identify nothing the properties depend on). -/
structure IndexEntry where
  text : String
  meta : ChunkMeta
deriving DecidableEq, Repr

/-- `delete_chunks_by_source(source_value)` of rag_core.py: remove every
entry whose metadata `source` equals the value. -/
def delete_chunks_by_source (idx : List IndexEntry) (source_value : String) :
    List IndexEntry :=
  idx.filter (fun e => !(e.meta.source == source_value))

/-- `ingest_text(text, source_label, metadata_base)` of ingest.py: return
unchanged on blank text, otherwise chunk and append the chunks tagged
`{**metadata_base, "source": source_label}` (via
`add_chunks_to_collection`, which appends to the collection). -/
def ingest_text (idx : List IndexEntry) (text : String) (source_label : String)
    (metadata_base : ChunkMeta) : List IndexEntry :=
  if pyStrip text = "" then idx
  else
    let chunks := chunk_text text CHUNK_SIZE CHUNK_OVERLAP
    if chunks = [] then idx
    else idx ++ chunks.map (fun c =>
      { text := c, meta := { metadata_base with source := source_label } })

/-- One `{url, content}` entry of the URL store. -/
structure UrlEntry where
  url : String
  content : String
deriving DecidableEq, Repr

/-- One `{question, answer}` entry of the Q&A store. -/
structure QnaEntry where
  question : String
  answer : String
deriving DecidableEq, Repr

/-- The durable state of the system: the knowledge file (`none` when the file
does not exist), the raw text of `url_content.txt` and `qna.txt` (a missing
flat file and an empty one behave identically in the modelled paths), the
documents directory as `(id, content)` pairs (one file `<id>.txt` each), and
the Chroma index. -/
structure SysState where
  knowledge : Option String
  urlFile : String
  qnaFile : String
  docs : List (String × String)
  index : List IndexEntry
deriving DecidableEq, Repr

/-- `ingest_pdf(path_or_bytes, filename)` of ingest.py, parameterized by the
externally extracted text: the source label is the filename (or the
`document.pdf` fallback); the extracted text is chunked and indexed but NOT
written to any durable store. -/
def ingest_pdf (st : SysState) (extracted : String) (filename : Option String) :
    SysState :=
  { st with
    index :=
      ingest_text st.index extracted (filename.getD "document.pdf")
        ({ source := "", type := "pdf" }) }

/-- `ingest_docx(path_or_bytes, filename)` of ingest.py, parameterized by the
externally extracted text; like `ingest_pdf`, no durable store is written. -/
def ingest_docx (st : SysState) (extracted : String) (filename : Option String) :
    SysState :=
  { st with
    index :=
      ingest_text st.index extracted (filename.getD "document.docx")
        ({ source := "", type := "docx" }) }

/-- `_append_url_content_to_file(url, text)` of ingest.py: append the
separator line and the extracted text to `url_content.txt`. -/
def _append_url_content_to_file (fileText url text : String) : String :=
  fileText ++ ("\n\n--- URL: " ++ url ++ " ---\n\n") ++ text ++ "\n"

/-- `ingest_url(url)` of ingest.py, parameterized by the externally extracted
page text: persist to `url_content.txt`, then chunk and index. -/
def ingest_url (st : SysState) (extracted : String) (url : String) : SysState :=
  { st with
    urlFile := _append_url_content_to_file st.urlFile url extracted,
    index := ingest_text st.index extracted url
      ({ source := "", type := "url", url := some url }) }

/-- `ingest_knowledge_file(path)` of ingest.py as an index transformation,
parameterized by the file content; the source label is the file name
(`KNOWLEDGE_PATH` defaults to "knowledge.txt"). -/
def ingest_knowledge_file (idx : List IndexEntry) (ktext : String) :
    List IndexEntry :=
  ingest_text idx ktext "knowledge.txt" ({ source := "", type := "txt" })

/-- One block of `parse_url_content_file` (ingest.py): strip the block, skip
it when empty, split at the first newline into url and content (both
stripped), skip when the url part is empty. -/
def parseUrlBlock (blockRaw : String) : Option UrlEntry :=
  let block := pyStrip blockRaw
  if block = "" then none
  else
    let d := block.data
    match d.findIdx? (fun c => c == '\n') with
    | some fn =>
      let url := pyStrip (String.mk (d.take fn))
      let content := pyStrip (String.mk (d.drop fn))
      if url = "" then none else some { url := url, content := content }
    | none =>
      if block = "" then none else some { url := block, content := "" }

/-- `parse_url_content_file()` of ingest.py on the text of the file: split on the
marker token `"--- URL:"` and parse each block. -/
def parse_url_content_file (fileText : String) : List UrlEntry :=
  ((pySplitOn "--- URL:" fileText.data).map String.mk).filterMap parseUrlBlock

/-- `rewrite_url_content_file(entries)` of ingest.py: the new text of
`url_content.txt`. -/
def rewrite_url_content_file (entries : List UrlEntry) : String :=
  joinSep "\n\n" (entries.map (fun e => "--- URL: " ++ e.url ++ " ---\n\n" ++ e.content))

/-- The `for e in entries: if e["url"] == url: e["content"] = new; break /
else: entries.append(...)` update inside `update_url_content`: replace the
content of the first entry with the given url, or append a new entry. -/
def setUrlContent : List UrlEntry → String → String → List UrlEntry
  | [], url, c => [{ url := url, content := c }]
  | e :: es, url, c =>
    if e.url = url then { url := e.url, content := c } :: es
    else e :: setUrlContent es url c

/-- `remove_url_from_knowledge_base(url)` of ingest.py: delete the chunks of the
url, then drop its entries from `url_content.txt`. -/
def remove_url_from_knowledge_base (st : SysState) (url : String) : SysState :=
  { st with
    index := delete_chunks_by_source st.index url,
    urlFile := rewrite_url_content_file
      ((parse_url_content_file st.urlFile).filter (fun e => !(e.url == url))) }

/-- `update_url_content(url, new_content)` of ingest.py: delete the chunks of the
url, replace (or add) its stored content, rewrite the file, and re-ingest
when the new content is non-blank. -/
def update_url_content (st : SysState) (url new_content : String) : SysState :=
  let idx1 := delete_chunks_by_source st.index url
  let entries := setUrlContent (parse_url_content_file st.urlFile) url new_content
  { st with
    urlFile := rewrite_url_content_file entries,
    index :=
      if pyStrip new_content ≠ "" then
        ingest_text idx1 new_content url
          ({ source := "", type := "url", url := some url })
      else idx1 }

/-- Stable insertion of `x` into a list by the boolean order `le`. -/
def insertSortedBy (le : α → α → Bool) (x : α) : List α → List α
  | [] => [x]
  | y :: ys => if le x y then x :: y :: ys else y :: insertSortedBy le x ys

/-- Insertion sort by the boolean order `le`, modelling Python `sorted`. -/
def sortBy (le : α → α → Bool) : List α → List α
  | [] => []
  | x :: xs => insertSortedBy le x (sortBy le xs)

/-- `list_documents()` of ingest.py: the `(id, name)` pairs of the documents
directory (`name` is the file name `<id>.txt`), sorted by name. -/
def list_documents (docs : List (String × String)) : List (String × String) :=
  sortBy (fun a b => decide (a.2 ≤ b.2)) (docs.map (fun d => (d.1, d.1 ++ ".txt")))

/-- `get_document_content(doc_id)` of ingest.py: the stored content, or the
empty string when no file `<doc_id>.txt` exists. -/
def get_document_content (docs : List (String × String)) (doc_id : String) :
    String :=
  (List.lookup doc_id docs).getD ""

/-- The `f.write_text(content)` step of `save_document`: create or overwrite
the document file. -/
def setDoc : List (String × String) → String → String → List (String × String)
  | [], doc_id, c => [(doc_id, c)]
  | d :: ds, doc_id, c =>
    if d.1 = doc_id then (doc_id, c) :: ds else d :: setDoc ds doc_id c

/-- `save_document(doc_id, name, content)` of ingest.py: write the file,
delete the chunks of the document, and re-ingest when the content is non-blank
(the doc_id is the source label). -/
def save_document (st : SysState) (doc_id name content : String) : SysState :=
  let docs2 := setDoc st.docs doc_id content
  let idx1 := delete_chunks_by_source st.index doc_id
  { st with
    docs := docs2,
    index :=
      if pyStrip content ≠ "" then
        ingest_text idx1 content doc_id
          ({ source := "", type := "doc", name := some name })
      else idx1 }

/-- `delete_document(doc_id)` of ingest.py: delete the chunks, then remove
the file if present. -/
def delete_document (st : SysState) (doc_id : String) : SysState :=
  { st with
    index := delete_chunks_by_source st.index doc_id,
    docs := st.docs.filter (fun d => !(d.1 == doc_id)) }

/-- One block of `parse_qna_file` (ingest.py): strip the block, skip it when
empty; a block starting with `"Q:"`/`"q:"` is split at its first newline into
question and (when the rest starts with `"A:"`/`"a:"`) answer; every other
non-empty block is still appended as `{question: "", answer: ""}`. -/
def parseQnaBlock (blockRaw : String) : Option QnaEntry :=
  let block := pyStrip blockRaw
  if block = "" then none
  else
    let d := block.data
    if ("Q:".data.isPrefixOf d || "q:".data.isPrefixOf d) then
      match d.findIdx? (fun c => c == '\n') with
      | some idx =>
        let q := pyStrip (String.mk ((d.take idx).drop 2))
        let rest := pyStrip (String.mk (d.drop idx))
        let a :=
          if ("A:".data.isPrefixOf rest.data || "a:".data.isPrefixOf rest.data) then
            pyStrip (String.mk (rest.data.drop 2))
          else ""
        some { question := q, answer := a }
      | none => some { question := pyStrip (String.mk (d.drop 2)), answer := "" }
    else some { question := "", answer := "" }

/-- `parse_qna_file()` of ingest.py on the text of the file: split on blank lines
and parse each block. -/
def parse_qna_file (fileText : String) : List QnaEntry :=
  ((pySplitOn "\n\n" fileText.data).map String.mk).filterMap parseQnaBlock

/-- `append_qna(question, answer)` of ingest.py: append the formatted pair to
`qna.txt` and ingest it under the label "qna". -/
def append_qna (st : SysState) (question answer : String) : SysState :=
  { st with
    qnaFile := st.qnaFile ++ ("Q: " ++ pyStrip question ++ "\nA: " ++ pyStrip answer ++ "\n\n"),
    index := ingest_text st.index
      ("Q: " ++ pyStrip question ++ "\nA: " ++ pyStrip answer) "qna"
      ({ source := "", type := "qna" }) }

/-- `delete_all_qna()` of ingest.py: delete the "qna" chunks and truncate
`qna.txt`. -/
def delete_all_qna (st : SysState) : SysState :=
  { st with
    index := delete_chunks_by_source st.index "qna",
    qnaFile := "" }

/-- `_write_qna_file(entries)` of ingest.py: the new text of `qna.txt`. -/
def _write_qna_file (entries : List QnaEntry) : String :=
  joinSep "\n\n" (entries.map (fun e => "Q: " ++ pyStrip e.question ++ "\nA: " ++ pyStrip e.answer))
    ++ (if entries = [] then "" else "\n\n")

/-- `delete_qna_at_index(index)` of ingest.py: parse the store; an
out-of-range index raises `IndexError("Q&A index out of range")` BEFORE any
mutation (returned as `some` error message with the state unchanged);
otherwise remove the entry, rewrite the file, delete the "qna" chunks, and
re-ingest the remaining entries as one text. -/
def delete_qna_at_index (st : SysState) (index : Int) : SysState × Option String :=
  let entries := parse_qna_file st.qnaFile
  if index < 0 ∨ (entries.length : Int) ≤ index then
    (st, some "Q&A index out of range")
  else
    let entries2 := entries.eraseIdx index.toNat
    let idx1 := delete_chunks_by_source st.index "qna"
    let idx2 :=
      if entries2 ≠ [] then
        ingest_text idx1
          (joinSep "\n\n" (entries2.map (fun e => "Q: " ++ e.question ++ "\nA: " ++ e.answer)))
          "qna" ({ source := "", type := "qna" })
      else idx1
    ({ st with qnaFile := _write_qna_file entries2, index := idx2 }, none)

/-- `reingest_all_sources()` of ingest.py: clear the collection, then ingest
the knowledge file (when present), every URL entry with non-empty content,
the whole `qna.txt` text (when non-blank), and every document with non-blank
content (in `list_documents` order). -/
def reingest_all_sources (st : SysState) : SysState :=
  let idx0 : List IndexEntry := []
  let idx1 :=
    match st.knowledge with
    | some ktext => ingest_knowledge_file idx0 ktext
    | none => idx0
  let idx2 := (parse_url_content_file st.urlFile).foldl
    (fun acc e =>
      if e.content ≠ "" then
        ingest_text acc e.content e.url ({ source := "", type := "url", url := some e.url })
      else acc) idx1
  let idx3 :=
    if pyStrip st.qnaFile ≠ "" then
      ingest_text idx2 st.qnaFile "qna" ({ source := "", type := "qna" })
    else idx2
  let idx4 := (list_documents st.docs).foldl
    (fun acc d =>
      if pyStrip (get_document_content st.docs d.1) ≠ "" then
        ingest_text acc (get_document_content st.docs d.1) d.1
          ({ source := "", type := "doc", name := some d.2 })
      else acc) idx3
  { st with index := idx4 }

/-- One source attribution of a query response: `{"text": snippet,
"source": label}` as built by `query_rag`. -/
structure SourceItem where
  text : String
  source : String
deriving DecidableEq, Repr

/-- A `query_rag` response: `{"answer": ..., "sources": [...]}`. -/
structure RagResponse where
  answer : String
  sources : List SourceItem
deriving DecidableEq, Repr

/-- The snippet of one retrieved chunk in `query_rag`: the text truncated to
200 characters with `"..."` appended when truncated. -/
def snippet (s : String) : String :=
  if 200 < s.length then String.mk (s.data.take 200) ++ "..." else s

/-- The source-label resolution chain of `query_rag`:
`meta.get("source") or meta.get("url") or meta.get("filename") or
"Chunk {i+1}"` (a missing key and an empty value are both falsy). -/
def labelOf (m : ChunkMeta) (i : Nat) : String :=
  if m.source ≠ "" then m.source
  else if m.url.getD "" ≠ "" then m.url.getD ""
  else if m.filename.getD "" ≠ "" then m.filename.getD ""
  else "Chunk " ++ toString (i + 1)

/-- `query_rag(question)` of rag_core.py, parameterized by the retrieval
results (`query_collection` output: `(chunk_text, metadata, distance)`
triples, distances as rationals) and by the outcome of the Groq completion
call (`Except.ok content` for a returned message content, `Except.error e`
for a raised exception with text `e`). Empty question, empty retrieval, the
`best_distance > 2.0` gate, source assembly, and the
degraded-answer-on-exception path follow the source. -/
def query_rag (question : String) (results : List (String × ChunkMeta × ℚ))
    (completion : Except String String) : RagResponse :=
  if pyStrip question = "" then
    { answer := "Please ask a question.", sources := [] }
  else
    match results with
    | [] =>
      { answer := "I couldn\x27t find any relevant information in the knowledge base to answer that.",
        sources := [] }
    | (_, _, best_distance) :: _ =>
      if 2 < best_distance then
        { answer := "I couldn\x27t find relevant information in the knowledge base for that question.",
          sources := [] }
      else
        let source_labels := results.enum.map
          (fun p => { text := snippet p.2.1, source := labelOf p.2.2.1 p.1 : SourceItem })
        let answer :=
          match completion with
          | Except.ok content => pyStrip content
          | Except.error e => "Sorry, an error occurred while generating an answer: " ++ e
        { answer := if answer = "" then "I couldn\x27t generate an answer." else answer,
          sources := source_labels }

/-- An HTTP-layer outcome of api.py: a successful JSON payload or an
`HTTPException(status_code, detail)`. -/
inductive ApiResp (α : Type) where
  | ok (val : α)
  | err (status : Nat) (detail : String)
deriving DecidableEq, Repr

/-- The payload of `GET /documents/{doc_id}`. -/
structure DocContent where
  id : String
  content : String
deriving DecidableEq, Repr

/-- `get_document(doc_id)` of api.py: always a 200 payload
`{"id": doc_id, "content": get_document_content(doc_id)}`. -/
def get_document (docs : List (String × String)) (doc_id : String) :
    ApiResp DocContent :=
  ApiResp.ok { id := doc_id, content := get_document_content docs doc_id }

/-- `delete_qna_one(index)` of api.py: call `delete_qna_at_index`; an
`IndexError` is mapped to a 404 response with the error text as detail. -/
def delete_qna_one (st : SysState) (index : Int) : SysState × ApiResp String :=
  match delete_qna_at_index st index with
  | (st2, none) =>
    (st2, ApiResp.ok ("Q&A at index " ++ toString index ++ " removed."))
  | (st2, some e) => (st2, ApiResp.err 404 e)

/-! Fuel hygiene: the iteration bounds passed by the wrappers are sufficient. -/

/-- The split scan is independent of the fuel once the fuel covers the number
of remaining characters (each step consumes at least one character). -/
theorem pySplitAux_fuel_irrelevant :
    ∀ (f1 : Nat) (sep : List Char) (f2 : Nat) (l acc : List Char),
      l.length ≤ f1 → l.length ≤ f2 →
      pySplitAux sep f1 l acc = pySplitAux sep f2 l acc := by
  intro f1
  induction f1 with
  | zero =>
    intro sep f2 l acc h1 _
    have : l = [] := List.length_eq_zero.mp (by omega)
    subst this
    cases f2 <;> rfl
  | succ n ih =>
    intro sep f2 l acc h1 h2
    cases l with
    | nil => cases f2 <;> rfl
    | cons c cs =>
      cases f2 with
      | zero => simp at h2
      | succ m =>
        simp only [pySplitAux]
        by_cases hp : sep.isPrefixOf (c :: cs) = true
        · rw [if_pos hp, if_pos hp]
          have hlen : (cs.drop (sep.length - 1)).length ≤ cs.length := by
            rw [List.length_drop]; omega
          rw [ih sep m (cs.drop (sep.length - 1)) []
            (by simp at h1; omega) (by simp at h2; omega)]
        · rw [if_neg hp, if_neg hp]
          exact ih sep m cs (c :: acc) (by simp at h1; omega) (by simp at h2; omega)

/-- The chunk loop is independent of the fuel once the fuel covers the number
of remaining word offsets (each iteration advances by at least one word). -/
theorem chunkLoop_fuel_irrelevant :
    ∀ (f1 : Nat) (ws : List String) (C r f2 i : Nat),
      ws.length - i ≤ f1 → ws.length - i ≤ f2 →
      chunkLoop ws C r f1 i = chunkLoop ws C r f2 i := by
  intro f1
  induction f1 with
  | zero =>
    intro ws C r f2 i h1 _
    have hi : ¬ i < ws.length := by omega
    cases f2 with
    | zero => rfl
    | succ m => simp only [chunkLoop]; rw [if_neg hi]
  | succ n ih =>
    intro ws C r f2 i h1 h2
    cases f2 with
    | zero =>
      have hi : ¬ i < ws.length := by omega
      simp only [chunkLoop]; rw [if_neg hi]
    | succ m =>
      simp only [chunkLoop]
      by_cases hi : i < ws.length
      · rw [if_pos hi, if_pos hi]
        by_cases hbr : ws.length ≤ i + C
        · rw [if_pos hbr, if_pos hbr]
        · rw [if_neg hbr, if_neg hbr]
          have hs : 1 ≤ max 1 r := le_max_left 1 r
          rw [ih ws C r m (i + max 1 r) (by omega) (by omega)]
      · rw [if_neg hi, if_neg hi]

/-! Python-string lemmas used by the chunk-count proof. -/

/-- A blank-stripped character list is empty exactly when every character is
whitespace. -/
theorem stripChars_eq_nil_iff (l : List Char) :
    stripChars l = [] ↔ ∀ c ∈ l, c.isWhitespace = true := by
  constructor
  · intro h c hc
    unfold stripChars at h
    rw [List.reverse_eq_nil_iff, List.dropWhile_eq_nil_iff] at h
    have hl1 : ∀ x ∈ l.dropWhile Char.isWhitespace, x.isWhitespace = true := by
      intro x hx; exact h x (List.mem_reverse.mpr hx)
    have hsplit := List.takeWhile_append_dropWhile (p := Char.isWhitespace) (l := l)
    rw [← hsplit] at hc
    rcases List.mem_append.mp hc with h1 | h2
    · exact List.mem_takeWhile_imp h1
    · exact hl1 c h2
  · intro h
    unfold stripChars
    have h1 : l.dropWhile Char.isWhitespace = [] :=
      List.dropWhile_eq_nil_iff.mpr (fun x hx => h x hx)
    simp [h1]

/-- Python truthiness of `s.strip()`: blank exactly when every character is
whitespace. -/
theorem pyStrip_eq_empty_iff (s : String) :
    pyStrip s = "" ↔ ∀ c ∈ s.data, c.isWhitespace = true := by
  unfold pyStrip
  constructor
  · intro h
    have : stripChars s.data = [] := by
      have := congrArg String.data h
      simpa using this
    exact (stripChars_eq_nil_iff _).mp this
  · intro h
    rw [(stripChars_eq_nil_iff _).mpr h]

/-- On an all-whitespace list the word scan only flushes its accumulator. -/
theorem wordsAux_all_ws :
    ∀ (t acc : List Char), (∀ c ∈ t, c.isWhitespace = true) →
      wordsAux t acc = if acc = [] then [] else [acc.reverse] := by
  intro t
  induction t with
  | nil => intro acc _; rfl
  | cons c cs ih =>
    intro acc h
    have hc : c.isWhitespace = true := h c (by simp)
    have hcs : ∀ x ∈ cs, x.isWhitespace = true := fun x hx => h x (by simp [hx])
    simp only [wordsAux, hc, if_true]
    rw [ih [] hcs]
    simp

/-- An all-whitespace suffix does not change the word scan. -/
theorem wordsAux_append_ws :
    ∀ (m t acc : List Char), (∀ c ∈ t, c.isWhitespace = true) →
      wordsAux (m ++ t) acc = wordsAux m acc := by
  intro m
  induction m with
  | nil =>
    intro t acc h
    rw [List.nil_append, wordsAux_all_ws t acc h]
    cases acc <;> simp [wordsAux]
  | cons c cs ih =>
    intro t acc h
    simp only [List.cons_append, wordsAux]
    by_cases hc : c.isWhitespace = true
    · rw [if_pos hc, if_pos hc]
      simp only [List.append_eq]
      rw [ih t [] h]
    · rw [if_neg hc, if_neg hc]
      exact ih t (c :: acc) h

/-- A leading all-whitespace run does not change the word scan. -/
theorem wordsAux_dropWhile :
    ∀ l : List Char, wordsAux (l.dropWhile Char.isWhitespace) [] = wordsAux l [] := by
  intro l
  induction l with
  | nil => rfl
  | cons c cs ih =>
    by_cases hc : c.isWhitespace = true
    · rw [List.dropWhile_cons]
      rw [if_pos hc, ih]
      simp [wordsAux, hc]
    · rw [List.dropWhile_cons, if_neg hc]

/-- Stripping does not change the words. -/
theorem stripChars_words :
    ∀ l : List Char, wordsAux (stripChars l) [] = wordsAux l [] := by
  intro l
  unfold stripChars
  have hws : ∀ c ∈ ((l.dropWhile Char.isWhitespace).reverse.takeWhile Char.isWhitespace).reverse,
      c.isWhitespace = true := by
    intro c hc
    rw [List.mem_reverse] at hc
    exact List.mem_takeWhile_imp hc
  have key : ((l.dropWhile Char.isWhitespace).reverse.dropWhile Char.isWhitespace).reverse
      ++ ((l.dropWhile Char.isWhitespace).reverse.takeWhile Char.isWhitespace).reverse
      = l.dropWhile Char.isWhitespace := by
    rw [← List.reverse_append, List.takeWhile_append_dropWhile, List.reverse_reverse]
  calc wordsAux ((l.dropWhile Char.isWhitespace).reverse.dropWhile Char.isWhitespace).reverse []
      = wordsAux (((l.dropWhile Char.isWhitespace).reverse.dropWhile Char.isWhitespace).reverse
          ++ ((l.dropWhile Char.isWhitespace).reverse.takeWhile Char.isWhitespace).reverse) [] :=
        (wordsAux_append_ws _ _ [] hws).symm
    _ = wordsAux (l.dropWhile Char.isWhitespace) [] := by rw [key]
    _ = wordsAux l [] := wordsAux_dropWhile l

/-- `text.strip().split() == text.split()`. -/
theorem pyWords_pyStrip (s : String) : pyWords (pyStrip s) = pyWords s := by
  unfold pyWords pyStrip
  rw [show (String.mk (stripChars s.data)).data = stripChars s.data from rfl,
    stripChars_words]

/-- Every word produced by the scan is non-empty and whitespace-free. -/
theorem wordsAux_sound :
    ∀ (cs acc : List Char), (∀ c ∈ acc, c.isWhitespace = false) →
      ∀ w ∈ wordsAux cs acc, w ≠ [] ∧ ∀ c ∈ w, c.isWhitespace = false := by
  intro cs
  induction cs with
  | nil =>
    intro acc hacc w hw
    simp only [wordsAux] at hw
    by_cases ha : acc = []
    · rw [if_pos ha] at hw; simp at hw
    · rw [if_neg ha] at hw
      simp only [List.mem_singleton] at hw
      subst hw
      exact ⟨by simpa using ha, fun c hc => hacc c (List.mem_reverse.mp hc)⟩
  | cons c cs ih =>
    intro acc hacc w hw
    simp only [wordsAux] at hw
    by_cases hc : c.isWhitespace = true
    · rw [if_pos hc] at hw
      rcases List.mem_append.mp hw with h1 | h2
      · by_cases ha : acc = []
        · rw [if_pos ha] at h1; simp at h1
        · rw [if_neg ha] at h1
          simp only [List.mem_singleton] at h1
          subst h1
          exact ⟨by simpa using ha, fun x hx => hacc x (List.mem_reverse.mp hx)⟩
      · exact ih [] (by simp) w h2
    · rw [if_neg hc] at hw
      refine ih (c :: acc) ?_ w hw
      intro x hx
      rcases List.mem_cons.mp hx with rfl | hx2
      · simpa using hc
      · exact hacc x hx2

/-- Every word of `pyWords` contains a non-whitespace character. -/
theorem pyWords_sound (s : String) :
    ∀ w ∈ pyWords s, ∃ c ∈ w.data, c.isWhitespace = false := by
  intro w hw
  unfold pyWords at hw
  rcases List.mem_map.mp hw with ⟨l, hl, rfl⟩
  rcases wordsAux_sound s.data [] (by simp) l hl with ⟨hne, hall⟩
  cases l with
  | nil => exact absurd rfl hne
  | cons c cs => exact ⟨c, by simp [String.mk], hall c (by simp)⟩

/-- The space-join of a non-empty word list starts with the first word. -/
theorem joinSep_data_cons (w : String) (ws : List String) :
    ∃ t, (joinSep " " (w :: ws)).data = w.data ++ t := by
  cases ws with
  | nil => exact ⟨[], by simp [joinSep]⟩
  | cons x xs =>
    refine ⟨(" " ++ joinSep " " (x :: xs)).data, ?_⟩
    show (w ++ (" " ++ joinSep " " (x :: xs))).data = _
    rw [String.data_append]

/-- A chunk window starting inside the word list is non-blank (it begins with
a non-empty whitespace-free word). -/
theorem chunk_nonblank (ws : List String) (C i : Nat)
    (hws : ∀ w ∈ ws, ∃ c ∈ w.data, c.isWhitespace = false)
    (hi : i < ws.length) (hC : 1 ≤ C) :
    pyStrip (joinSep " " ((ws.drop i).take C)) ≠ "" := by
  have hne : ws.drop i ≠ [] := by
    intro h
    have := congrArg List.length h
    rw [List.length_drop] at this
    simp at this
    omega
  obtain ⟨w, tl, hd⟩ := List.exists_cons_of_ne_nil hne
  obtain ⟨k, rfl⟩ : ∃ k, C = k + 1 := ⟨C - 1, by omega⟩
  rw [hd, List.take_succ_cons]
  obtain ⟨t, ht⟩ := joinSep_data_cons w (tl.take k)
  have hw : w ∈ ws := by
    have hmem : w ∈ ws.drop i := by rw [hd]; simp
    exact List.drop_subset i ws hmem
  obtain ⟨c, hc, hcw⟩ := hws w hw
  intro hcontra
  rw [pyStrip_eq_empty_iff] at hcontra
  have hcmem : c ∈ (joinSep " " (w :: tl.take k)).data := by
    rw [ht]; exact List.mem_append.mpr (Or.inl hc)
  have := hcontra c hcmem
  rw [hcw] at this
  exact Bool.false_ne_true this

/-- Length of the chunk loop from offset `i`: one window per stride until the
window end passes the end of the words. -/
theorem chunkLoop_length_eq :
    ∀ (fuel : Nat) (ws : List String) (C r i : Nat),
      ws.length - i ≤ fuel →
      (∀ w ∈ ws, ∃ c ∈ w.data, c.isWhitespace = false) →
      1 ≤ C → r ≤ C → i < ws.length →
      (chunkLoop ws C r fuel i).length
        = (ws.length - i - C + max 1 r - 1) / max 1 r + 1 := by
  intro fuel
  induction fuel with
  | zero => intro ws C r i hfuel _ _ _ hi; omega
  | succ n ih =>
    intro ws C r i hfuel hws hC hrC hi
    have hs1 : 1 ≤ max 1 r := le_max_left 1 r
    have hsC : max 1 r ≤ C := max_le hC hrC
    have hcnb := chunk_nonblank ws C i hws hi hC
    simp only [chunkLoop]
    rw [if_pos hi, if_neg hcnb]
    by_cases hbr : ws.length ≤ i + C
    · rw [if_pos hbr]
      simp only [List.length_cons, List.length_nil]
      have hd0 : ws.length - i - C = 0 := by omega
      rw [hd0, Nat.div_eq_of_lt (by omega)]
    · rw [if_neg hbr]
      have hilen : i + max 1 r < ws.length := by omega
      rw [List.length_cons,
        ih ws C r (i + max 1 r) (by omega) hws hC hrC hilen]
      generalize hsv : max 1 r = s at *
      have hD1 : 1 ≤ ws.length - i - C := by omega
      have hD2 : ws.length - (i + s) - C = ws.length - i - C - s := by omega
      rw [hD2]
      generalize hDv : ws.length - i - C = D at *
      by_cases hds : D ≤ s
      · have h1 : D - s = 0 := by omega
        rw [h1]
        have h2 : (0 + s - 1) / s = 0 := Nat.div_eq_of_lt (by omega)
        have h3 : (D + s - 1) / s = 1 :=
          Nat.div_eq_of_lt_le (by omega) (by omega)
        rw [h2, h3]
      · have h4 : D - s + s - 1 = D - 1 := by omega
        have h5 : D + s - 1 = (D - 1) + s := by omega
        rw [h4, h5, Nat.add_div_right _ (by omega)]

/-- The chunk count of `chunk_text` as a truncated-subtraction formula over
the word count of the input. -/
theorem chunk_text_length_eq (text : String) (C O : Nat)
    (hC : 1 ≤ C) (hO : O < C) (hW : 1 ≤ (pyWords text).length) :
    (chunk_text text C O).length
      = ((pyWords text).length - C + (C - O) - 1) / (C - O) + 1 := by
  have hwords : pyWords (pyStrip text) = pyWords text := pyWords_pyStrip text
  have hstrip : pyStrip text ≠ "" := by
    intro h
    have hempty : pyWords (pyStrip text) = [] := by
      rw [h]; rfl
    rw [hwords] at hempty
    rw [hempty] at hW
    simp at hW
  have hwne : pyWords (pyStrip text) ≠ [] := by
    rw [hwords]
    intro h
    rw [h] at hW
    simp at hW
  simp only [chunk_text]
  rw [if_neg hstrip, if_neg hwne]
  have hmax : max 1 (C - O) = C - O := max_eq_right (by omega)
  have hi0 : 0 < (pyWords (pyStrip text)).length := by rw [hwords]; omega
  rw [chunkLoop_length_eq ((pyWords (pyStrip text)).length) (pyWords (pyStrip text))
    C (C - O) 0 (by omega) (fun w hw => pyWords_sound _ w hw) hC (by omega) hi0]
  rw [hwords, hmax]
  simp

/-- Bridge from the truncated-subtraction chunk-count to the integer
ceiling formula of the spec, clamped at one chunk. -/
theorem natdiv_eq_ceilq (W C O : Nat) (hC : 1 ≤ C) (hO : O < C) :
    (((W - C + (C - O) - 1) / (C - O) + 1 : Nat) : Int)
      = max 1 (ceilQ ((W : Int) - (C : Int)) ((C : Int) - (O : Int)) + 1) := by
  have hb : (0 : Int) < (C : Int) - (O : Int) := by
    have : (O : Int) < (C : Int) := by exact_mod_cast hO
    omega
  unfold ceilQ
  by_cases h1 : W ≤ O
  · have hWC : W - C = 0 := by omega
    rw [hWC, Nat.div_eq_of_lt (by omega)]
    have hWle : (W : Int) ≤ (O : Int) := by exact_mod_cast h1
    have hnum : (W : Int) - C + ((C : Int) - O) - 1 < 0 := by omega
    have hdiv := Int.ediv_neg' hnum hb
    rw [max_eq_left (by omega)]
    simp
  · by_cases h2 : W ≤ C
    · have hWC : W - C = 0 := by omega
      rw [hWC, Nat.div_eq_of_lt (by omega)]
      have hOlt : (O : Int) < (W : Int) := by exact_mod_cast (by omega : O < W)
      have hWle : (W : Int) ≤ (C : Int) := by exact_mod_cast h2
      rw [Int.ediv_eq_zero_of_lt (by omega) (by omega)]
      simp
    · have h3 : C ≤ W := by omega
      have h4 : O ≤ C := by omega
      have e1 : ((W - C : Nat) : Int) = (W : Int) - C := Nat.cast_sub h3
      have e2 : ((C - O : Nat) : Int) = (C : Int) - O := Nat.cast_sub h4
      have e3 : ((W - C + (C - O) - 1 : Nat) : Int)
          = (W : Int) - C + ((C : Int) - O) - 1 := by
        rw [Nat.cast_sub (by omega : 1 ≤ W - C + (C - O)), Nat.cast_add, e1, e2,
          Nat.cast_one]
      have hClt : (C : Int) < (W : Int) := by exact_mod_cast (by omega : C < W)
      have hq1 : 1 ≤ ((W : Int) - C + ((C : Int) - O) - 1) / ((C : Int) - O) :=
        (Int.le_ediv_iff_mul_le hb).mpr (by omega)
      rw [max_eq_right (by omega)]
      rw [Nat.cast_add, Nat.cast_one, Int.ofNat_ediv, e3, e2]

/-- Blank text yields no chunks. -/
theorem chunk_text_of_blank (text : String) (C O : Nat)
    (h : pyStrip text = "") : chunk_text text C O = [] := by
  simp [chunk_text, h]

/-- C3. The chunk-count formula of the claim fails on the code: the one-word
text "a" with chunk_size 2 and overlap 1 is inside the domain of the claim (W = 1 ≥ 1,
C ≥ 1, 0 ≤ O < C), `chunk_text` returns one chunk, but
`ceil((W - C) / (C - O)) + 1 = 0`. -/
theorem c3_chunk_count_counterexample :
    (pyWords "a").length = 1 ∧ 1 ≤ 2 ∧ 1 < 2 ∧
    ¬ (((chunk_text "a" 2 1).length : Int)
        = ceilQ (((pyWords "a").length : Int) - 2) ((2 : Int) - 1) + 1) := by
  decide

/-- C3 (amended). For text with `W ≥ 1` words, `chunk_size = C ≥ 1` and
`0 ≤ O < C`, the chunk count is `max 1 (ceil((W - C) / (C - O)) + 1)` — the
formula of the claim clamped below at one chunk (the clamp is what the
counterexample forces: for `1 ≤ W ≤ O` the code emits one chunk while the
raw formula is non-positive; for `W > O` the two agree); for `W = 0` the
result is the empty chunk list. -/
theorem c3_chunk_count_amended :
    (∀ (text : String) (C O : Nat), 1 ≤ C → O < C → 1 ≤ (pyWords text).length →
      ((chunk_text text C O).length : Int)
        = max 1 (ceilQ (((pyWords text).length : Int) - (C : Int)) ((C : Int) - (O : Int)) + 1)) ∧
    (∀ (text : String) (C O : Nat), (pyWords text).length = 0 →
      chunk_text text C O = []) := by
  constructor
  · intro text C O hC hO hW
    rw [chunk_text_length_eq text C O hC hO hW]
    exact natdiv_eq_ceilq _ C O hC hO
  · intro text C O hW
    have hnil : pyWords text = [] := List.length_eq_zero.mp hW
    simp only [chunk_text]
    by_cases h : pyStrip text = ""
    · rw [if_pos h]
    · rw [if_neg h, if_pos (by rw [pyWords_pyStrip]; exact hnil)]

/-- C3 witness: the amended formula at a concrete input (7 words, chunk
size 3, overlap 1: three chunks), and the zero-word case. -/
theorem c3_chunk_count_witness :
    ((1 : Nat) ≤ 3 ∧ (1 : Nat) < 3 ∧ 1 ≤ (pyWords "a b c d e f g").length) ∧
    ((chunk_text "a b c d e f g" 3 1).length : Int)
      = max 1 (ceilQ (((pyWords "a b c d e f g").length : Int) - 3) ((3 : Int) - 1) + 1) ∧
    ((pyWords "").length = 0 ∧ chunk_text "" 3 1 = []) :=
  ⟨⟨by decide, by decide, by decide⟩,
   c3_chunk_count_amended.1 "a b c d e f g" 3 1 (by decide) (by decide) (by decide),
   by decide, c3_chunk_count_amended.2 "" 3 1 (by decide)⟩

/-- Deleting the chunks of a source leaves nothing under that source label. -/
theorem delete_chunks_self (idx : List IndexEntry) (l : String) :
    (delete_chunks_by_source idx l).filter (fun e => e.meta.source == l) = [] := by
  unfold delete_chunks_by_source
  rw [List.filter_filter]
  have : ∀ e : IndexEntry,
      ((e.meta.source == l) && !(e.meta.source == l)) = false := by
    intro e; cases e.meta.source == l <;> rfl
  simp [this]

/-- After delete-then-reinsert for a label, the entries under that label are
exactly the chunks of the new text (empty when the text is blank). -/
theorem filter_ingest_delete (idx : List IndexEntry) (text l : String)
    (base : ChunkMeta) :
    (((ingest_text (delete_chunks_by_source idx l) text l base).filter
        (fun e => e.meta.source == l)).map (fun e => e.text))
      = chunk_text text CHUNK_SIZE CHUNK_OVERLAP := by
  by_cases hb : pyStrip text = ""
  · rw [chunk_text_of_blank text _ _ hb]
    simp [ingest_text, hb, delete_chunks_self]
  · simp only [ingest_text, if_neg hb]
    by_cases hc : chunk_text text CHUNK_SIZE CHUNK_OVERLAP = []
    · rw [if_pos hc, hc, delete_chunks_self]
      rfl
    · rw [if_neg hc]
      rw [List.filter_append, delete_chunks_self, List.nil_append]
      rw [List.filter_map]
      have hp : ∀ c : String,
          ((fun e : IndexEntry => e.meta.source == l) ∘
            (fun c => { text := c, meta := { base with source := l } : IndexEntry })) c = true := by
        intro c; simp
      rw [List.filter_eq_self.mpr (fun c _ => hp c), List.map_map]
      have hid : ((fun e : IndexEntry => e.text) ∘
          (fun c => ({ text := c, meta := { base with source := l } } : IndexEntry)))
          = fun c => c := rfl
      rw [hid, List.map_id']

/-- C1. After `update_url_content(url, new_content)` or
`save_document(doc_id, name, content)`, the index entries whose
`metadata.source` equals the label of the source are exactly the chunks of
`chunk_text` applied to the new content (zero entries when it is blank),
regardless of the prior state. -/
theorem c1_update_reindexes_exactly :
    (∀ (st : SysState) (url new_content : String),
      (((update_url_content st url new_content).index.filter
          (fun e => e.meta.source == url)).map (fun e => e.text))
        = chunk_text new_content CHUNK_SIZE CHUNK_OVERLAP) ∧
    (∀ (st : SysState) (doc_id name content : String),
      (((save_document st doc_id name content).index.filter
          (fun e => e.meta.source == doc_id)).map (fun e => e.text))
        = chunk_text content CHUNK_SIZE CHUNK_OVERLAP) := by
  constructor
  · intro st url new_content
    simp only [update_url_content]
    by_cases hb : pyStrip new_content = ""
    · rw [if_neg (by simpa using hb)]
      rw [chunk_text_of_blank _ _ _ hb]
      simp [delete_chunks_self]
    · rw [if_pos (by simpa using hb)]
      exact filter_ingest_delete st.index new_content url _
  · intro st doc_id name content
    simp only [save_document]
    by_cases hb : pyStrip content = ""
    · rw [if_neg (by simpa using hb)]
      rw [chunk_text_of_blank _ _ _ hb]
      simp [delete_chunks_self]
    · rw [if_pos (by simpa using hb)]
      exact filter_ingest_delete st.index content doc_id _

/-- C2. Counterexample: from the empty system, ingesting a PDF with extracted
text "hello" puts one chunk under the label "a.pdf" but writes no durable
store, and `reingest_all_sources` then produces an empty index — the chunks
of the previously ingested PDF are gone, so the index is not a rebuildable
projection of the source stores. -/
theorem c2_pdf_not_persisted_counterexample :
    (ingest_pdf ⟨none, "", "", [], []⟩ "hello" (some "a.pdf")).index
        = [⟨"hello", ⟨"a.pdf", "pdf", none, none, none⟩⟩] ∧
    (ingest_pdf ⟨none, "", "", [], []⟩ "hello" (some "a.pdf")).urlFile = "" ∧
    (ingest_pdf ⟨none, "", "", [], []⟩ "hello" (some "a.pdf")).qnaFile = "" ∧
    (ingest_pdf ⟨none, "", "", [], []⟩ "hello" (some "a.pdf")).docs = [] ∧
    (ingest_pdf ⟨none, "", "", [], []⟩ "hello" (some "a.pdf")).knowledge = none ∧
    (reingest_all_sources
        (ingest_pdf ⟨none, "", "", [], []⟩ "hello" (some "a.pdf"))).index = [] := by
  decide

/-- C2 (amended). `ingest_pdf` and `ingest_docx` index the extracted text but
persist nothing: every durable store is unchanged, and consequently
`reingest_all_sources` — which rebuilds the index from the stores alone —
produces the same state whether or not a PDF/DOCX ingest happened before it.
The URL, document, Q&A and knowledge stores do feed the rebuild; PDF and
DOCX uploads are outside the rebuildable projection. -/
theorem c2_pdf_docx_not_persisted_amended :
    ∀ (st : SysState) (extracted : String) (filename : Option String),
      (ingest_pdf st extracted filename).urlFile = st.urlFile ∧
      (ingest_pdf st extracted filename).qnaFile = st.qnaFile ∧
      (ingest_pdf st extracted filename).docs = st.docs ∧
      (ingest_pdf st extracted filename).knowledge = st.knowledge ∧
      reingest_all_sources (ingest_pdf st extracted filename)
        = reingest_all_sources st ∧
      (ingest_docx st extracted filename).urlFile = st.urlFile ∧
      (ingest_docx st extracted filename).qnaFile = st.qnaFile ∧
      (ingest_docx st extracted filename).docs = st.docs ∧
      (ingest_docx st extracted filename).knowledge = st.knowledge ∧
      reingest_all_sources (ingest_docx st extracted filename)
        = reingest_all_sources st := by
  intro st extracted filename
  exact ⟨rfl, rfl, rfl, rfl, rfl, rfl, rfl, rfl, rfl, rfl⟩

/-- C4. Counterexample: the gate is not the configured
`SIMILARITY_THRESHOLD`. A retrieval whose best distance 1 exceeds
`SIMILARITY_THRESHOLD` (0.4) is answered normally with a non-empty source
list instead of the "no relevant information" response the claim requires. -/
theorem c4_threshold_not_used_counterexample :
    SIMILARITY_THRESHOLD < (1 : ℚ) ∧
    query_rag "q" [("c", ⟨"s", "txt", none, none, none⟩, 1)] (Except.ok "ans")
      = ⟨"ans", [⟨"c", "s"⟩]⟩ := by
  constructor
  · norm_num [SIMILARITY_THRESHOLD]
  · decide

/-- C4 (amended). The gate threshold of `query_rag` is the constant 2.0
hard-coded in rag_core.py, not the configuration parameter
`SIMILARITY_THRESHOLD` (which equals 2/5 and is unused by the gate): for a
non-blank question, whenever retrieval is non-empty and its best (first)
distance exceeds 2, the fixed "no relevant information" message is returned
with an empty source list, even if lower-ranked candidates exist. -/
theorem c4_gate_is_hardcoded_two :
    SIMILARITY_THRESHOLD = 2 / 5 ∧
    ∀ (q t : String) (m : ChunkMeta) (d : ℚ)
      (rest : List (String × ChunkMeta × ℚ)) (comp : Except String String),
      pyStrip q ≠ "" → 2 < d →
      query_rag q ((t, m, d) :: rest) comp
        = ⟨"I couldn\x27t find relevant information in the knowledge base for that question.", []⟩ := by
  constructor
  · norm_num [SIMILARITY_THRESHOLD]
  · intro q t m d rest comp hq hd
    simp only [query_rag, if_neg hq]
    rw [if_pos hd]

/-- C4 witness: the amended gate at a concrete input. -/
theorem c4_gate_witness :
    (pyStrip "q" ≠ "" ∧ (2 : ℚ) < 3) ∧
    query_rag "q" [("t", ⟨"s", "txt", none, none, none⟩, 3)] (Except.ok "x")
      = ⟨"I couldn\x27t find relevant information in the knowledge base for that question.", []⟩ :=
  ⟨⟨by decide, by norm_num⟩,
   c4_gate_is_hardcoded_two.2 "q" "t" ⟨"s", "txt", none, none, none⟩ 3 []
     (Except.ok "x") (by decide) (by norm_num)⟩

/-- C5. Counterexample: the NO_INDEX_MATCH answer (empty retrieval) and the
LOW_CONFIDENCE_MATCH answer (best distance above the gate) are two different
strings in the code, though both carry empty sources. -/
theorem c5_messages_differ_counterexample :
    (query_rag "q" [] (Except.ok "a")).sources = [] ∧
    (query_rag "q" [("t", ⟨"s", "txt", none, none, none⟩, 3)] (Except.ok "a")).sources = [] ∧
    ¬ ((query_rag "q" [] (Except.ok "a")).answer
        = (query_rag "q" [("t", ⟨"s", "txt", none, none, none⟩, 3)] (Except.ok "a")).answer) := by
  decide

/-- C5 (amended). Both terminal states carry an empty source list and a
fixed no-relevant-information answer, but the two answer strings differ:
NO_INDEX_MATCH says "... any relevant information ... to answer that." while
LOW_CONFIDENCE_MATCH says "... relevant information ... for that
question.". -/
theorem c5_both_empty_sources_different_strings :
    ∀ (q t : String) (m : ChunkMeta) (d : ℚ)
      (rest : List (String × ChunkMeta × ℚ)) (ca cb : Except String String),
      pyStrip q ≠ "" → 2 < d →
      query_rag q [] ca
        = ⟨"I couldn\x27t find any relevant information in the knowledge base to answer that.", []⟩ ∧
      query_rag q ((t, m, d) :: rest) cb
        = ⟨"I couldn\x27t find relevant information in the knowledge base for that question.", []⟩ ∧
      ¬ (("I couldn\x27t find any relevant information in the knowledge base to answer that." : String)
          = "I couldn\x27t find relevant information in the knowledge base for that question.") := by
  intro q t m d rest ca cb hq hd
  refine ⟨?_, ?_, by decide⟩
  · simp only [query_rag, if_neg hq]
  · simp only [query_rag, if_neg hq]
    rw [if_pos hd]

/-- C5 witness: both terminal states at concrete inputs. -/
theorem c5_messages_witness :
    (pyStrip "q" ≠ "" ∧ (2 : ℚ) < 3) ∧
    query_rag "q" [] (Except.ok "a")
      = ⟨"I couldn\x27t find any relevant information in the knowledge base to answer that.", []⟩ ∧
    query_rag "q" [("t", ⟨"s", "txt", none, none, none⟩, 3)] (Except.ok "a")
      = ⟨"I couldn\x27t find relevant information in the knowledge base for that question.", []⟩ :=
  ⟨⟨by decide, by norm_num⟩,
   (c5_both_empty_sources_different_strings "q" "t" ⟨"s", "txt", none, none, none⟩
      3 [] (Except.ok "a") (Except.ok "a") (by decide) (by norm_num)).1,
   (c5_both_empty_sources_different_strings "q" "t" ⟨"s", "txt", none, none, none⟩
      3 [] (Except.ok "a") (Except.ok "a") (by decide) (by norm_num)).2.1⟩

/-- C9. When retrieval passes the gate but the completion call raises an
exception, `query_rag` does not propagate it: the answer is the apology
string with the error text appended, and the sources list is the same one
assembled on a successful completion. -/
theorem c9_generation_failure_degrades :
    ∀ (q t : String) (m : ChunkMeta) (d : ℚ)
      (rest : List (String × ChunkMeta × ℚ)) (e a : String),
      pyStrip q ≠ "" → d ≤ 2 →
      (query_rag q ((t, m, d) :: rest) (Except.error e)).answer
          = "Sorry, an error occurred while generating an answer: " ++ e ∧
      (query_rag q ((t, m, d) :: rest) (Except.error e)).sources
          = (query_rag q ((t, m, d) :: rest) (Except.ok a)).sources := by
  intro q t m d rest e a hq hd
  have hne : "Sorry, an error occurred while generating an answer: " ++ e ≠ "" := by
    intro hcontra
    have hdata : ("Sorry, an error occurred while generating an answer: ").data ++ e.data
        = ([] : List Char) := by
      simpa [String.data_append] using congrArg String.data hcontra
    have := (List.append_eq_nil.mp hdata).1
    exact absurd this (by decide)
  have hgate : ¬ (2 : ℚ) < d := not_lt.mpr hd
  simp only [query_rag, if_neg hq]
  rw [if_neg hgate, if_neg hgate]
  exact ⟨by rw [if_neg hne], rfl⟩

/-- C9 witness: the degraded answer at a concrete input. -/
theorem c9_degrades_witness :
    (pyStrip "q" ≠ "" ∧ (1 : ℚ) ≤ 2) ∧
    (query_rag "q" [("chunk", ⟨"s", "txt", none, none, none⟩, 1)] (Except.error "boom")).answer
        = "Sorry, an error occurred while generating an answer: " ++ "boom" ∧
    (query_rag "q" [("chunk", ⟨"s", "txt", none, none, none⟩, 1)] (Except.error "boom")).sources
        = (query_rag "q" [("chunk", ⟨"s", "txt", none, none, none⟩, 1)] (Except.ok "fine")).sources :=
  ⟨⟨by decide, by norm_num⟩,
   c9_generation_failure_degrades "q" "chunk" ⟨"s", "txt", none, none, none⟩ 1 []
     "boom" "fine" (by decide) (by norm_num)⟩

/-- C6. Evaluation at the failing input: writing the single entry
`{url: "a", content: "b"}` produces the documented byte format, but parsing
it back yields url `"a ---"` — `parse_url_content_file` keeps the trailing
`" ---"` of the `--- URL: <url> ---` marker, so parse∘write is not the
identity even for plain one-line ASCII entries (and a url listed from the
file no longer matches the label under which `ingest_url` stored the
chunks). -/
theorem c6_url_roundtrip_bug_eval :
    rewrite_url_content_file [{ url := "a", content := "b" }]
        = "--- URL: a ---\n\nb" ∧
    parse_url_content_file "--- URL: a ---\n\nb"
        = [{ url := "a ---", content := "b" }] ∧
    ¬ (parse_url_content_file (rewrite_url_content_file [{ url := "a", content := "b" }])
        = [{ url := "a", content := "b" }]) := by
  decide

/-- C7. Counterexample: reading a nonexistent document is a silent success,
not a not-found error — `GET /documents/missing` on an empty document store
returns a 200 payload with empty content. -/
theorem c7_missing_document_counterexample :
    get_document [] "missing" = ApiResp.ok ⟨"missing", ""⟩ := by
  decide

/-- C7 (amended). Reading a nonexistent document produces a silent success:
`get_document_content` returns the empty string and the API responds with a
200 payload `{id, content: ""}`; no not-found error is raised for
documents. -/
theorem c7_missing_document_amended :
    ∀ (docs : List (String × String)) (doc_id : String),
      List.lookup doc_id docs = none →
      get_document_content docs doc_id = "" ∧
      get_document docs doc_id = ApiResp.ok ⟨doc_id, ""⟩ := by
  intro docs doc_id h
  have h1 : get_document_content docs doc_id = "" := by
    simp [get_document_content, h]
  exact ⟨h1, by simp [get_document, h1]⟩

/-- C7 witness: the missing-document behaviour at a concrete input. -/
theorem c7_missing_document_witness :
    List.lookup "missing" ([] : List (String × String)) = none ∧
    get_document_content [] "missing" = "" ∧
    get_document [] "missing" = ApiResp.ok ⟨"missing", ""⟩ :=
  ⟨rfl, (c7_missing_document_amended [] "missing" rfl).1,
   (c7_missing_document_amended [] "missing" rfl).2⟩

/-- C8. `delete_qna_at_index(i)` with `i < 0` or `i ≥ n` (n parsed entries)
raises `IndexError("Q&A index out of range")` before any mutation, so the
Q&A file and the index are unchanged, and the API layer maps the error to a
404 response. -/
theorem c8_delete_qna_out_of_range :
    ∀ (st : SysState) (i : Int),
      (i < 0 ∨ ((parse_qna_file st.qnaFile).length : Int) ≤ i) →
      delete_qna_at_index st i = (st, some "Q&A index out of range") ∧
      delete_qna_one st i = (st, ApiResp.err 404 "Q&A index out of range") := by
  intro st i h
  have h1 : delete_qna_at_index st i = (st, some "Q&A index out of range") := by
    simp only [delete_qna_at_index]
    rw [if_pos h]
  refine ⟨h1, ?_⟩
  simp only [delete_qna_one, h1]

/-- C8 witness: index 5 on an empty (zero-entry) store. -/
theorem c8_delete_qna_witness :
    ((5 : Int) < 0 ∨
      ((parse_qna_file (SysState.mk none "" "" [] []).qnaFile).length : Int) ≤ 5) ∧
    delete_qna_one (SysState.mk none "" "" [] []) 5
      = (SysState.mk none "" "" [] [], ApiResp.err 404 "Q&A index out of range") :=
  ⟨Or.inr (by decide),
   (c8_delete_qna_out_of_range (SysState.mk none "" "" [] []) 5 (Or.inr (by decide))).2⟩

/-- A Q&A block parses to nothing exactly when it strips to the empty
string. -/
theorem parseQnaBlock_none_iff (b : String) :
    parseQnaBlock b = none ↔ pyStrip b = "" := by
  constructor
  · intro h
    by_cases hb : pyStrip b = ""
    · exact hb
    · exfalso
      simp only [parseQnaBlock, if_neg hb] at h
      by_cases hq : ("Q:".data.isPrefixOf (pyStrip b).data
          || "q:".data.isPrefixOf (pyStrip b).data) = true
      · rw [if_pos hq] at h
        cases hfind : (pyStrip b).data.findIdx? (fun c => c == '\n') with
        | none => rw [hfind] at h; simp at h
        | some idx => rw [hfind] at h; simp at h
      · rw [if_neg hq] at h
        simp at h
  · intro h
    simp [parseQnaBlock, h]

/-- Length of the block-parse: one entry per non-blank block. -/
theorem filterMap_parseQnaBlock_length :
    ∀ bs : List String,
      (bs.filterMap parseQnaBlock).length
        = bs.countP (fun b => !(pyStrip b == "")) := by
  intro bs
  induction bs with
  | nil => rfl
  | cons b bs ih =>
    rw [List.filterMap_cons, List.countP_cons]
    by_cases h : pyStrip b = ""
    · rw [(parseQnaBlock_none_iff b).mpr h]
      simp [h, ih]
    · cases he : parseQnaBlock b with
      | none => exact absurd ((parseQnaBlock_none_iff b).mp he) h
      | some e => simp [he, h, ih]

/-- C10. `parse_qna_file` is total and drops no non-blank block: any block
whose stripped text is non-empty and does not start with "Q:"/"q:" is
returned as the entry `{question: "", answer: ""}` (rather than skipped or
an error), and the parsed list has exactly one entry per non-blank block of
the file, so every non-blank block occupies a positional index addressable
by `delete_qna_at_index`. -/
theorem c10_parse_qna_total :
    (∀ b : String, pyStrip b ≠ "" →
      ¬ ("Q:".data.isPrefixOf (pyStrip b).data = true) →
      ¬ ("q:".data.isPrefixOf (pyStrip b).data = true) →
      parseQnaBlock b = some ⟨"", ""⟩) ∧
    (∀ fileText : String,
      (parse_qna_file fileText).length
        = ((pySplitOn "\n\n" fileText.data).map String.mk).countP
            (fun b => !(pyStrip b == ""))) := by
  constructor
  · intro b hb h1 h2
    have hq : ("Q:".data.isPrefixOf (pyStrip b).data
        || "q:".data.isPrefixOf (pyStrip b).data) = false := by
      rw [Bool.or_eq_false_iff]
      constructor
      · exact Bool.not_eq_true _ ▸ (Bool.eq_false_iff.mpr h1)
      · exact Bool.not_eq_true _ ▸ (Bool.eq_false_iff.mpr h2)
    simp only [parseQnaBlock, if_neg hb]
    rw [if_neg (by simp [hq])]
  · intro fileText
    exact filterMap_parseQnaBlock_length _

/-- C10 witness: a non-Q block parses to the empty entry, and the length law
at a concrete file. -/
theorem c10_parse_qna_witness :
    (pyStrip "hello world" ≠ "" ∧
      parseQnaBlock "hello world" = some ⟨"", ""⟩) ∧
    (parse_qna_file "x\n\nQ: a\nA: b\n\n").length
      = ((pySplitOn "\n\n" ("x\n\nQ: a\nA: b\n\n").data).map String.mk).countP
          (fun b => !(pyStrip b == "")) :=
  ⟨⟨by decide,
    c10_parse_qna_total.1 "hello world" (by decide) (by decide) (by decide)⟩,
   c10_parse_qna_total.2 "x\n\nQ: a\nA: b\n\n"⟩
